import Mathlib

/-!
Verification of the suno-playlist-downloader core against its specification.

The definitions below are a shallow embedding of the Python source:
  - `merge_json`, `get_playlist`, `request_download_url` embed
    src/suno_downloader/api.py;
  - `sanitize_filename`, `download_with_retries` embed
    src/suno_downloader/utils.py;
  - `write_csv_manifest` embeds the manifest-writing step of
    `process_playlist` in src/suno_downloader/cli.py.

Parsed JSON bodies are modelled by the inductive type `Json`; Python dicts
produced by the json parser are association lists with distinct keys, read
with first-match lookup. Python exceptions surface as an explicit error
type `PyErr`.
-/

/-- A parsed JSON value, as produced by the json parser in the Python
source. `null` is the JSON null (Python None). -/
inductive Json where
  | obj : List (String × Json) → Json
  | arr : List Json → Json
  | str : String → Json
  | num : Int → Json
  | bool : Bool → Json
  | null : Json

/-- Python exceptions that the embedded code can raise. -/
inductive PyErr where
  | typeError
  | attributeError
deriving DecidableEq

/-- Dict lookup `d.get(key)` / `d[key]` on a parsed JSON object: first
binding for the key, if any. -/
def lookupJson : List (String × Json) → String → Option Json
  | [], _ => none
  | (k, v) :: rest, key => if k = key then some v else lookupJson rest key

/-- The membership test `key in d` of api.py line 11. -/
def containsKey (l : List (String × Json)) (key : String) : Bool :=
  (lookupJson l key).isSome

/-- Dict assignment `d[key] = v` when the key is already present:
replaces the value in place. -/
def updateAssoc : List (String × Json) → String → Json → List (String × Json)
  | [], _, _ => []
  | (k, v) :: rest, key, newV =>
      if k = key then (k, newV) :: rest else (k, v) :: updateAssoc rest key newV

mutual

/-- Embedding of `merge_json` (api.py lines 7-18): dict-with-dict merges
key by key, list-with-list concatenates, anything else returns the second
argument. -/
def merge_json : Json → Json → Json
  | .obj a, .obj b => .obj (mergeInto a b)
  | .arr a, .arr b => .arr (a ++ b)
  | _, b => b
termination_by _ b => sizeOf b

/-- The loop of `merge_json` over `b.items()` (api.py lines 10-14):
`result` starts as a copy of `a`; each binding of `b` either merges into
an existing key or is appended. -/
def mergeInto (a : List (String × Json)) : List (String × Json) → List (String × Json)
  | [] => a
  | (k, v) :: rest =>
      match lookupJson a k with
      | some w => mergeInto (updateAssoc a k (merge_json w v)) rest
      | none => mergeInto (a ++ [(k, v)]) rest
termination_by l => sizeOf l

end

/-- Python `len(v)` on a parsed JSON value: defined for sequences,
dicts and strings; a `TypeError` (modelled as `none`) otherwise. -/
def pyLen : Json → Option Nat
  | .arr l => some l.length
  | .obj l => some l.length
  | .str s => some s.length
  | _ => none

/-- The expression `len(x.get('playlist_clips'))` of api.py lines 47
and 50: `.get` on a non-dict raises AttributeError; a missing key gives
Python None, and `len(None)` raises TypeError. -/
def clipCount : Json → Except PyErr Nat
  | .obj fs =>
      match lookupJson fs "playlist_clips" with
      | none => .error .typeError
      | some v =>
          match pyLen v with
          | none => .error .typeError
          | some n => .ok n
  | _ => .error .attributeError

/-- The `for page in range(1,1000000)` loop of `get_playlist` (api.py
lines 41-49). `pages` maps a page number to the parsed body of a
successful response for that page; `fuel` is the number of loop
iterations still allowed by the range; `reqs` records the page numbers
requested so far, in order. The loop breaks at the first page whose
clip sequence is empty, before merging that page. -/
def getPlaylistLoop (pages : Nat → Json) :
    Nat → Nat → Json → List Nat → Except PyErr (Json × List Nat)
  | 0, _, acc, reqs => .ok (acc, reqs)
  | fuel + 1, page, acc, reqs =>
      let x := pages page
      match clipCount x with
      | .error e => .error e
      | .ok 0 => .ok (acc, reqs ++ [page])
      | .ok (_ + 1) => getPlaylistLoop pages fuel (page + 1) (merge_json acc x) (reqs ++ [page])

/-- Embedding of `SunoAPI.get_playlist` (api.py lines 39-51), with the
HTTP transport abstracted into `pages` (every page request is assumed to
succeed with the given parsed body, matching the success path after
`raise_for_status`). Returns the merged accumulator together with the
list of page numbers requested, or the Python exception raised. The
final step models `len(all.get('playlist_clips'))` in the song-count
print on line 50. -/
def get_playlist (pages : Nat → Json) : Except PyErr (Json × List Nat) :=
  match getPlaylistLoop pages 999999 1 (.obj []) [] with
  | .error e => .error e
  | .ok (acc, reqs) =>
      match clipCount acc with
      | .error e => .error e
      | .ok _ => .ok (acc, reqs)

/-- A three-page playlist response: page 1 carries clips `a, b`, page 2
carries clip `c`, every later page is empty. -/
def pagesThree (a b c : Json) (n : Nat) : Json :=
  if n = 1 then .obj [("playlist_clips", .arr [a, b])]
  else if n = 2 then .obj [("playlist_clips", .arr [c])]
  else .obj [("playlist_clips", .arr [])]

/-- A playlist response whose second page terminates pagination while
carrying a non-clip field `extra` with value `v`. -/
def pagesStop (v : Json) (n : Nat) : Json :=
  if n = 1 then .obj [("playlist_clips", .arr [Json.null])]
  else .obj [("playlist_clips", .arr []), ("extra", v)]

/-- The constructed CDN URL of api.py lines 62 and 66. -/
def cdnFallback (clip_id : String) : String :=
  "https://cdn1.suno.ai/" ++ clip_id ++ ".wav"

/-- Embedding of `SunoAPI.request_download_url` (api.py lines 53-67) on
the success path of the status call (`raise_for_status` passed). `body`
is the parsed JSON of the status response, `none` when the body is
unparsable (the `ValueError` branch). `data.get("wav_file_url")` on a
non-dict body raises AttributeError; a missing field or a JSON null
field value is Python None and triggers the fallback. -/
def request_download_url (clip_id : String) (body : Option Json) : Except PyErr Json :=
  match body with
  | none => .ok (.str (cdnFallback clip_id))
  | some data =>
      match data with
      | .obj fs =>
          match lookupJson fs "wav_file_url" with
          | none => .ok (.str (cdnFallback clip_id))
          | some .null => .ok (.str (cdnFallback clip_id))
          | some v => .ok v
      | _ => .error .attributeError

/-- Observable outcome of one call to `download_with_retries`:
the value returned or exception raised, the sleeps performed in order,
and the number of attempts made. -/
structure RetryTrace where
  result : Except String Bool
  sleeps : List Nat
  attemptsMade : Nat

/-- The `for attempt in range(1, attempts + 1)` loop of
`download_with_retries` (utils.py lines 19-33). `att k` is the outcome
of the body of attempt `k`: `.ok ()` when the transfer succeeds,
`.error e` when it raises `e`. `k` is the current 1-based attempt
number and the second argument the number of attempts remaining,
including the current one; the current attempt is the last exactly when
no further attempt remains (`attempt == attempts`). After a failed
non-final attempt `k` the executor sleeps `backoff * k`. -/
def retryLoop (att : Nat → Except String Unit) (backoff : Nat) (k : Nat) :
    Nat → RetryTrace
  | 0 => { result := .ok false, sleeps := [], attemptsMade := 0 }
  | remaining + 1 =>
      match att k with
      | .ok _ => { result := .ok true, sleeps := [], attemptsMade := 1 }
      | .error e =>
          match remaining with
          | 0 => { result := .error e, sleeps := [], attemptsMade := 1 }
          | _ + 1 =>
              let t := retryLoop att backoff (k + 1) remaining
              { result := t.result
                sleeps := backoff * k :: t.sleeps
                attemptsMade := t.attemptsMade + 1 }

/-- Embedding of `download_with_retries` (utils.py lines 16-34), with
the attempt body (streamed HTTP transfer) abstracted into `att`.
A fall-through of the loop (possible only when `attempts = 0`) returns
`False`, matching line 34. -/
def download_with_retries (att : Nat → Except String Unit)
    (attempts backoff : Nat) : RetryTrace :=
  retryLoop att backoff 1 attempts

/-- The set of characters replaced by the sanitizer (utils.py line 7). -/
def INVALID_CHARS : List Char := ['/', '\\', ':', '?', '*', '"', '<', '>', '|']

/-- The characters stripped by Python `str.strip()` with no argument:
exactly those `c` with `c.isspace()` true. -/
def PY_WHITESPACE : List Char :=
  [' ', '\t', '\n', '\x0b', '\x0c', '\r', '\x1c', '\x1d', '\x1e', '\x1f',
   '\x85', '\xa0', ' ', ' ', ' ', ' ', ' ',
   ' ', ' ', ' ', ' ', ' ', ' ', ' ',
   ' ', ' ', ' ', ' ', '　']

/-- Python `c.isspace()` for a single character. -/
def pyIsSpace (c : Char) : Bool := decide (c ∈ PY_WHITESPACE)

/-- Python `s.strip()`: drop whitespace from both ends. -/
def pyStrip (s : List Char) : List Char :=
  ((s.dropWhile pyIsSpace).reverse.dropWhile pyIsSpace).reverse

/-- The per-character replacement `c if c not in INVALID_CHARS else '_'`
of utils.py line 13. -/
def replChar (c : Char) : Char := if c ∈ INVALID_CHARS then '_' else c

/-- Embedding of `sanitize_filename` (utils.py lines 10-13), on strings
as lists of characters. An empty (falsy) input returns the fallback
name; otherwise every invalid character is replaced by an underscore
and the result is stripped of surrounding whitespace. -/
def sanitize_filename (name : List Char) : List Char :=
  if name = [] then "unnamed".toList else pyStrip (name.map replChar)

/-- One manifest entry, as built by `process_playlist`
(cli.py lines 203-209): a dict with exactly these five keys. -/
structure ManifestEntry where
  playlist_id : String
  clip_id : String
  title : String
  file_path : String
  download_url : String
deriving DecidableEq

/-- The key order of a manifest entry dict, which is also
`manifest[0].keys()` on a non-empty manifest (cli.py line 221). -/
def manifestFieldNames : List String :=
  ["playlist_id", "clip_id", "title", "file_path", "download_url"]

/-- The values of one manifest entry in key order, as emitted for one
CSV data row by `writer.writerows` (cli.py line 230). -/
def entryValues (e : ManifestEntry) : List String :=
  [e.playlist_id, e.clip_id, e.title, e.file_path, e.download_url]

/-- A written CSV file: one header row and the data rows. -/
structure CsvFile where
  header : List String
  rows : List (List String)
deriving DecidableEq

/-- Embedding of the CSV-manifest step of `process_playlist`
(cli.py lines 220-230): the file is written only when the csv flag is
set and the manifest is non-empty; it then holds one header row of the
field names of the first entry followed by one data row per entry, in
entry order. `none` means no file is written. -/
def write_csv_manifest (manifest_csv : Bool) (manifest : List ManifestEntry) :
    Option CsvFile :=
  if manifest_csv = true ∧ manifest ≠ [] then
    some { header := manifestFieldNames, rows := manifest.map entryValues }
  else none

/-- Whether a JSON value is a dict (`isinstance(v, dict)`). -/
def Json.isObj : Json → Bool
  | .obj _ => true
  | _ => false

/-- Whether a JSON value is a sequence (`isinstance(v, list)`). -/
def Json.isArr : Json → Bool
  | .arr _ => true
  | _ => false

/-- Combination of the lookups of the two merged dicts on one key, per
the merge rule: common keys merge recursively, otherwise whichever
side has the key provides the value. -/
def mergeLookup : Option Json → Option Json → Option Json
  | some va, some vb => some (merge_json va vb)
  | some va, none => some va
  | none, ob => ob

/-!
Theorems for the claims.
-/

theorem lookupJson_eq_none_of_not_mem (l : List (String × Json)) (key : String)
    (h : key ∉ l.map Prod.fst) : lookupJson l key = none := by
  induction l with
  | nil => rfl
  | cons p rest ih =>
    obtain ⟨k, v⟩ := p
    rw [List.map_cons, List.mem_cons] at h
    push_neg at h
    simp [lookupJson, Ne.symm h.1, ih h.2]

theorem lookupJson_updateAssoc_self (l : List (String × Json)) (key : String)
    (v w : Json) (h : lookupJson l key = some w) :
    lookupJson (updateAssoc l key v) key = some v := by
  induction l with
  | nil => simp [lookupJson] at h
  | cons p rest ih =>
    obtain ⟨k, u⟩ := p
    by_cases hk : k = key
    · subst hk
      simp [updateAssoc, lookupJson]
    · simp [lookupJson, hk] at h
      simp [updateAssoc, lookupJson, hk, ih h]

theorem lookupJson_updateAssoc_ne (l : List (String × Json)) (key k' : String)
    (v : Json) (h : k' ≠ key) :
    lookupJson (updateAssoc l key v) k' = lookupJson l k' := by
  induction l with
  | nil => rfl
  | cons p rest ih =>
    obtain ⟨k, u⟩ := p
    by_cases hk : k = key
    · subst hk
      simp [updateAssoc, lookupJson, Ne.symm h]
    · simp [updateAssoc, lookupJson, hk, ih]

theorem lookupJson_append (l1 l2 : List (String × Json)) (key : String) :
    lookupJson (l1 ++ l2) key =
      match lookupJson l1 key with
      | some v => some v
      | none => lookupJson l2 key := by
  induction l1 with
  | nil => simp [lookupJson]
  | cons p rest ih =>
    obtain ⟨k, u⟩ := p
    by_cases hk : k = key
    · simp [lookupJson, hk]
    · simp [lookupJson, hk, ih]

/-- Lookup in the merge of two dicts: a common key holds the recursive
merge of the two values, a key present on one side only keeps its
value, and a key absent from both is absent from the merge. Requires
the second dict to have distinct keys, which parsed Python dicts
always have. -/
theorem lookupJson_mergeInto (fb : List (String × Json)) :
    ∀ (fa : List (String × Json)) (key : String), (fb.map Prod.fst).Nodup →
      lookupJson (mergeInto fa fb) key =
        mergeLookup (lookupJson fa key) (lookupJson fb key) := by
  induction fb with
  | nil =>
    intro fa key _
    simp only [mergeInto, lookupJson]
    cases lookupJson fa key <;> rfl
  | cons p rest ih =>
    obtain ⟨kb, vb⟩ := p
    intro fa key hnd
    simp only [List.map_cons, List.nodup_cons] at hnd
    obtain ⟨hkb, hnd⟩ := hnd
    have hrest : lookupJson rest kb = none := lookupJson_eq_none_of_not_mem rest kb hkb
    simp only [mergeInto]
    cases h1 : lookupJson fa kb with
    | some w =>
      rw [ih _ key hnd]
      by_cases hk : key = kb
      · subst hk
        rw [lookupJson_updateAssoc_self fa key (merge_json w vb) w h1, hrest, h1]
        simp [lookupJson, mergeLookup]
      · rw [lookupJson_updateAssoc_ne fa kb key (merge_json w vb) hk]
        simp [lookupJson, Ne.symm hk]
    | none =>
      rw [ih _ key hnd]
      by_cases hk : key = kb
      · subst hk
        rw [lookupJson_append, h1, hrest]
        simp [lookupJson, mergeLookup]
      · rw [lookupJson_append]
        simp only [lookupJson, Ne.symm hk, if_false]
        cases lookupJson fa key <;> simp [lookupJson, Ne.symm hk, mergeLookup]

/-- C5: `merge_json` satisfies, for all values `a` (earlier
accumulator) and `b` (later page): if both are dicts, the keys of the
result are the union of the two key sets with values merged
recursively on common keys (expressed through lookup: a common key
maps to the recursive merge, a one-sided key to its one value, an
absent key to nothing); if both are sequences, the result is `a`
followed by `b`; in every other case the later value `b` wins. -/
theorem merge_json_spec (a b : Json) :
    (∀ fa fb, a = .obj fa → b = .obj fb → (fb.map Prod.fst).Nodup →
      merge_json a b = .obj (mergeInto fa fb)
      ∧ ∀ key, lookupJson (mergeInto fa fb) key =
          mergeLookup (lookupJson fa key) (lookupJson fb key))
    ∧ (∀ la lb, a = .arr la → b = .arr lb → merge_json a b = .arr (la ++ lb))
    ∧ ((a.isObj && b.isObj) = false → (a.isArr && b.isArr) = false →
        merge_json a b = b) := by
  refine ⟨?_, ?_, ?_⟩
  · rintro fa fb rfl rfl hnd
    exact ⟨by simp [merge_json], fun key => lookupJson_mergeInto fb fa key hnd⟩
  · rintro la lb rfl rfl
    simp [merge_json]
  · intro h1 h2
    cases a <;> cases b <;> simp_all [merge_json, Json.isObj, Json.isArr]

theorem head?_dropWhile_false {α : Type} (p : α → Bool) (l : List α) (c : α)
    (h : (l.dropWhile p).head? = some c) : p c = false := by
  induction l with
  | nil => simp [List.dropWhile] at h
  | cons a t ih =>
    by_cases hp : p a = true
    · rw [List.dropWhile_cons_of_pos hp] at h
      exact ih h
    · rw [List.dropWhile_cons_of_neg hp] at h
      injection h with h
      subst h
      simpa using hp

theorem dropWhile_eq_self_of_head {α : Type} (p : α → Bool) (l : List α)
    (h : ∀ c, l.head? = some c → p c = false) : l.dropWhile p = l := by
  cases l with
  | nil => rfl
  | cons a t =>
    have := h a rfl
    rw [List.dropWhile_cons_of_neg (by simp [this])]

theorem getLast?_dropWhile {α : Type} (p : α → Bool) (l : List α)
    (h : l.dropWhile p ≠ []) : (l.dropWhile p).getLast? = l.getLast? := by
  induction l with
  | nil => exact absurd rfl h
  | cons a t ih =>
    by_cases hp : p a = true
    · rw [List.dropWhile_cons_of_pos hp] at h ⊢
      cases t with
      | nil => exact absurd rfl h
      | cons b t' =>
        rw [ih h, List.getLast?_cons_cons]
    · rw [List.dropWhile_cons_of_neg hp]

theorem dropWhile_eq_nil_of_all {α : Type} (p : α → Bool) (l : List α)
    (h : ∀ c ∈ l, p c = true) : l.dropWhile p = [] := by
  induction l with
  | nil => rfl
  | cons a t ih =>
    rw [List.dropWhile_cons_of_pos (h a (by simp))]
    exact ih (fun c hc => h c (by simp [hc]))

theorem map_eq_self_of_mem {α : Type} (f : α → α) (l : List α)
    (h : ∀ c ∈ l, f c = c) : l.map f = l := by
  induction l with
  | nil => rfl
  | cons a t ih =>
    rw [List.map_cons, h a (by simp), ih (fun c hc => h c (by simp [hc]))]

theorem mem_of_mem_pyStrip (l : List Char) (c : Char) (h : c ∈ pyStrip l) :
    c ∈ l := by
  unfold pyStrip at h
  rw [List.mem_reverse] at h
  have h2 := (List.dropWhile_sublist pyIsSpace).subset h
  rw [List.mem_reverse] at h2
  exact (List.dropWhile_sublist pyIsSpace).subset h2

/-- Stripping is idempotent: a string already stripped of surrounding
whitespace is unchanged by a second strip. -/
theorem pyStrip_idem (l : List Char) : pyStrip (pyStrip l) = pyStrip l := by
  by_cases hB : (((l.dropWhile pyIsSpace).reverse).dropWhile pyIsSpace) = []
  · unfold pyStrip
    rw [hB]
    simp
  · have h1 : ∀ c, (pyStrip l).head? = some c → pyIsSpace c = false := by
      intro c hc
      unfold pyStrip at hc
      rw [List.head?_reverse] at hc
      rw [getLast?_dropWhile _ _ hB] at hc
      rw [List.getLast?_reverse] at hc
      exact head?_dropWhile_false pyIsSpace l c hc
    have h2 : (pyStrip l).dropWhile pyIsSpace = pyStrip l :=
      dropWhile_eq_self_of_head _ _ h1
    show (((pyStrip l).dropWhile pyIsSpace).reverse.dropWhile pyIsSpace).reverse
      = pyStrip l
    rw [h2]
    have h3 : ∀ c, ((pyStrip l).reverse).head? = some c → pyIsSpace c = false := by
      intro c hc
      unfold pyStrip at hc
      rw [List.reverse_reverse] at hc
      exact head?_dropWhile_false pyIsSpace _ c hc
    rw [dropWhile_eq_self_of_head _ _ h3]
    unfold pyStrip
    rw [List.reverse_reverse]

/-- Replacing a character twice is the same as replacing it once:
the replacement underscore is itself a valid character. -/
theorem replChar_idem (c : Char) : replChar (replChar c) = replChar c := by
  by_cases h : c ∈ INVALID_CHARS
  · have h1 : replChar c = '_' := by rw [replChar, if_pos h]
    rw [h1]
    decide
  · have h1 : replChar c = c := by rw [replChar, if_neg h]
    rw [h1]
    exact h1

/-- The image of the replacement never is an invalid character. -/
theorem replChar_not_invalid (c : Char) : replChar c ∉ INVALID_CHARS := by
  by_cases h : c ∈ INVALID_CHARS
  · rw [replChar, if_pos h]
    decide
  · rw [replChar, if_neg h]
    exact h

/-- C6 counterexample: a single space sanitizes to the empty string,
which sanitizes to the fallback name, so sanitization is not idempotent
on every input. -/
theorem sanitize_filename_idem_cex :
    sanitize_filename (sanitize_filename [' ']) ≠ sanitize_filename [' '] := by
  decide

/-- C6 (amended): `sanitize_filename` is idempotent on every input
whose sanitized form is non-empty; the exception is any non-empty
all-whitespace input, which sanitizes to the empty string while the
empty string sanitizes to the fallback name. -/
theorem sanitize_filename_idem (x : List Char)
    (h : sanitize_filename x ≠ []) :
    sanitize_filename (sanitize_filename x) = sanitize_filename x := by
  by_cases hx : x = []
  · subst hx
    decide
  · have hsx : sanitize_filename x = pyStrip (x.map replChar) := by
      rw [sanitize_filename, if_neg hx]
    have hne : pyStrip (x.map replChar) ≠ [] := by
      rw [hsx] at h
      exact h
    rw [hsx]
    have hs2 : sanitize_filename (pyStrip (x.map replChar)) =
        pyStrip ((pyStrip (x.map replChar)).map replChar) := by
      rw [sanitize_filename, if_neg hne]
    rw [hs2]
    have hmap : (pyStrip (x.map replChar)).map replChar = pyStrip (x.map replChar) := by
      apply map_eq_self_of_mem
      intro c hc
      obtain ⟨c', _, rfl⟩ := List.mem_map.mp (mem_of_mem_pyStrip _ c hc)
      exact replChar_idem c'
    rw [hmap, pyStrip_idem]

/-- C6 witness: a name with an inner invalid character sanitizes to a
fixed point. -/
theorem sanitize_filename_idem_witness :
    sanitize_filename (sanitize_filename ("a/b".toList)) =
      sanitize_filename ("a/b".toList) :=
  sanitize_filename_idem ("a/b".toList) (by decide)

/-- C7: for every input string, the output of `sanitize_filename`
contains none of the invalid characters. -/
theorem sanitize_filename_no_invalid (s : List Char) (c : Char)
    (h1 : c ∈ sanitize_filename s) (h2 : c ∈ INVALID_CHARS) : False := by
  rw [sanitize_filename] at h1
  by_cases hs : s = []
  · rw [if_pos hs] at h1
    have : ∀ x ∈ "unnamed".toList, x ∉ INVALID_CHARS := by decide
    exact this c h1 h2
  · rw [if_neg hs] at h1
    obtain ⟨c', _, rfl⟩ := List.mem_map.mp (mem_of_mem_pyStrip _ c h1)
    exact replChar_not_invalid c' h2

/-- C7 witness: the sanitized form of a name with a slash does not
contain the slash. -/
theorem sanitize_filename_no_invalid_witness :
    ¬ '/' ∈ sanitize_filename ("a/b".toList) :=
  fun h => sanitize_filename_no_invalid ("a/b".toList) '/' h (by decide)

/-- C10 counterexample: the non-empty input `unnamed` also maps to the
output `unnamed`, so the fallback output does not characterize the
empty input. -/
theorem sanitize_filename_unnamed_cex :
    sanitize_filename ("unnamed".toList) = "unnamed".toList
    ∧ "unnamed".toList ≠ ([] : List Char) := by
  exact ⟨by decide, by decide⟩

/-- C10 (amended): `sanitize_filename` returns the fallback name on the
empty input - the only input taking the fallback branch, though other
inputs can produce the same output - and on any non-empty input made
only of whitespace the replacement leaves the whitespace intact, the
strip removes everything, and the result is the empty string, not the
fallback name. -/
theorem sanitize_filename_empty_whitespace :
    sanitize_filename [] = "unnamed".toList
    ∧ (∀ x : List Char, x ≠ [] → (∀ c ∈ x, pyIsSpace c = true) →
        sanitize_filename x = [] ∧ sanitize_filename x ≠ "unnamed".toList) := by
  constructor
  · rfl
  · intro x hx hws
    have hws_not_invalid : ∀ c ∈ PY_WHITESPACE, c ∉ INVALID_CHARS := by decide
    have hmap : x.map replChar = x := by
      apply map_eq_self_of_mem
      intro c hc
      have hcw : c ∈ PY_WHITESPACE := by
        have := hws c hc
        simpa [pyIsSpace] using this
      rw [replChar, if_neg (hws_not_invalid c hcw)]
    have hstrip : pyStrip x = [] := by
      unfold pyStrip
      rw [dropWhile_eq_nil_of_all _ _ hws]
      simp
    have hres : sanitize_filename x = [] := by
      rw [sanitize_filename, if_neg hx, hmap, hstrip]
    exact ⟨hres, by rw [hres]; decide⟩

/-- C10 witness: a single-space input sanitizes to the empty string. -/
theorem sanitize_filename_empty_whitespace_witness :
    sanitize_filename [' '] = [] :=
  (sanitize_filename_empty_whitespace.2 [' '] (by decide) (by decide)).1

/-- C5 witness: merging `{k: 1}` with `{k: 2, m: 3}` resolves the
common key `k` to the recursive merge of the two scalars, in which the
later value wins. -/
theorem merge_json_spec_witness :
    lookupJson (mergeInto [("k", Json.num 1)] [("k", Json.num 2), ("m", Json.num 3)])
      "k" = some (Json.num 2) := by
  have h := ((merge_json_spec (.obj [("k", Json.num 1)])
      (.obj [("k", Json.num 2), ("m", Json.num 3)])).1
      [("k", Json.num 1)] [("k", Json.num 2), ("m", Json.num 3)] rfl rfl
      (by simp)).2 "k"
  rw [h]
  simp [lookupJson, mergeLookup, merge_json]

/-- C1: for a playlist fetch in which page 1 returns clips `[a, b]`,
page 2 returns clip `[c]` and page 3 returns an empty clip sequence,
`get_playlist` returns a merged result whose clip sequence is exactly
`[a, b, c]`, and it issues exactly 3 page requests, for pages 1, 2, 3
in that order. -/
theorem get_playlist_three_pages (a b c : Json) :
    get_playlist (pagesThree a b c) =
      .ok (.obj [("playlist_clips", .arr [a, b, c])], [1, 2, 3]) := by
  simp [get_playlist, getPlaylistLoop, pagesThree, clipCount, pyLen,
    lookupJson, merge_json, mergeInto, updateAssoc]

/-- C2 counterexample: on a success status whose body parses to a JSON
sequence, which lacks the field `wav_file_url`, `request_download_url`
does not return the CDN template URL but raises AttributeError
(`data.get` on a non-dict). -/
theorem request_download_url_cex :
    request_download_url "xyz" (some (.arr [])) = .error .attributeError := rfl

/-- C2 (amended): on a success status, if the body is unparsable, or
parses to a JSON object whose `wav_file_url` field is missing or null,
`request_download_url` returns the deterministic CDN template URL
built only from the clip id; a success body parsing to a non-object
instead raises AttributeError. -/
theorem request_download_url_fallback (cid : String) (body : Option Json) :
    (body = none → request_download_url cid body = .ok (.str (cdnFallback cid)))
    ∧ (∀ fs, body = some (.obj fs) →
        (lookupJson fs "wav_file_url" = none ∨ lookupJson fs "wav_file_url" = some .null) →
        request_download_url cid body = .ok (.str (cdnFallback cid))) := by
  constructor
  · intro h
    subst h
    rfl
  · intro fs hb hf
    subst hb
    rcases hf with hf | hf <;> simp [request_download_url, hf]

/-- C2 witness: a body parsing to an object without the field yields
the CDN template URL for the clip id. -/
theorem request_download_url_fallback_witness :
    request_download_url "xyz" (some (.obj [("a", .num 1)])) =
      .ok (.str (cdnFallback "xyz")) :=
  (request_download_url_fallback "xyz" (some (.obj [("a", .num 1)]))).2
    [("a", .num 1)] rfl (Or.inl rfl)

/-- C4 counterexample: with a first page of one clip and a terminating
second page carrying a non-clip field `extra`, the returned data does
not contain `extra`: the terminating page is not merged. -/
theorem get_playlist_stop_cex :
    ¬ ∃ (fs : List (String × Json)) (reqs : List Nat),
        get_playlist (pagesStop (Json.str "x")) = .ok (.obj fs, reqs)
        ∧ lookupJson fs "extra" ≠ none := by
  rintro ⟨fs, reqs, h1, h2⟩
  have h0 : get_playlist (pagesStop (Json.str "x")) =
      .ok (.obj [("playlist_clips", .arr [Json.null])], [1, 2]) := by
    simp [get_playlist, getPlaylistLoop, pagesStop, clipCount, pyLen,
      lookupJson, merge_json, mergeInto, updateAssoc]
  rw [h0] at h1
  have hfs : fs = [("playlist_clips", Json.arr [Json.null])] := by
    injection h1 with h1
    injection h1 with h1 _
    exact (Json.obj.inj h1).symm
  subst hfs
  simp [lookupJson] at h2

/-- C4 (amended): pagination stops at the first page whose clip
sequence is empty; that terminating page is requested but its
contribution is not merged: the accumulator is returned unchanged, so
non-clip fields carried by the terminating page do not appear in the
returned data, and it contributes no clips. -/
theorem get_playlist_stop_unmerged :
    (∀ (pages : Nat → Json) (fuel page : Nat) (acc : Json) (reqs : List Nat),
        clipCount (pages page) = .ok 0 →
        getPlaylistLoop pages (fuel + 1) page acc reqs = .ok (acc, reqs ++ [page]))
    ∧ (∀ v : Json, get_playlist (pagesStop v) =
        .ok (.obj [("playlist_clips", .arr [Json.null])], [1, 2])) := by
  constructor
  · intro pages fuel page acc reqs h
    simp [getPlaylistLoop, h]
  · intro v
    simp [get_playlist, getPlaylistLoop, pagesStop, clipCount, pyLen,
      lookupJson, merge_json, mergeInto, updateAssoc]

/-- C4 witness: a page with an empty clip sequence stops the loop and
leaves the accumulator unchanged. -/
theorem get_playlist_stop_unmerged_witness :
    getPlaylistLoop (fun _ => Json.obj [("playlist_clips", Json.arr [])]) 1 1
      (Json.obj []) [] = .ok (Json.obj [], [1]) :=
  get_playlist_stop_unmerged.1 (fun _ => Json.obj [("playlist_clips", Json.arr [])])
    0 1 (Json.obj []) [] rfl

/-- C9: when the very first page has an empty clip sequence,
`get_playlist` does not return an empty result: the loop breaks before
any merge, the accumulator is the empty dict, and the final clip-count
computation applies `len` to the missing field (Python None), raising
TypeError. -/
theorem get_playlist_empty_first (pages : Nat → Json) (fs : List (String × Json))
    (h1 : pages 1 = .obj fs)
    (h2 : lookupJson fs "playlist_clips" = some (.arr [])) :
    get_playlist pages = .error .typeError := by
  simp [get_playlist, getPlaylistLoop, clipCount, h1, h2, pyLen, lookupJson]

/-- C9 witness: a playlist whose every page is an empty clip list makes
`get_playlist` raise TypeError. -/
theorem get_playlist_empty_first_witness :
    get_playlist (fun _ => Json.obj [("playlist_clips", Json.arr [])]) =
      .error .typeError :=
  get_playlist_empty_first (fun _ => Json.obj [("playlist_clips", Json.arr [])])
    [("playlist_clips", Json.arr [])] rfl rfl

/-- C8: when the CSV format is enabled and the manifest has entries,
the written CSV has exactly one header row holding the field names of
an entry, followed by one data row per entry in entry order (so N data
rows for N entries); an empty manifest writes no CSV file at all. -/
theorem write_csv_manifest_spec (flag : Bool) (m : List ManifestEntry) :
    (m = [] → write_csv_manifest flag m = none)
    ∧ (flag = true → m ≠ [] →
        write_csv_manifest flag m = some ⟨manifestFieldNames, m.map entryValues⟩
        ∧ (m.map entryValues).length = m.length) := by
  constructor
  · intro h
    subst h
    simp [write_csv_manifest]
  · intro hf hm
    subst hf
    refine ⟨by simp [write_csv_manifest, hm], by simp⟩

/-- C8 witness: a single-entry manifest produces the header row and one
data row. -/
theorem write_csv_manifest_spec_witness :
    write_csv_manifest true [⟨"p", "c", "t", "f", "u"⟩] =
      some ⟨manifestFieldNames, [["p", "c", "t", "f", "u"]]⟩ :=
  ((write_csv_manifest_spec true [⟨"p", "c", "t", "f", "u"⟩]).2 rfl
    (by simp)).1

/-- One step of the retry loop on a failed non-final attempt: the
executor sleeps `backoff * k` and continues with attempt `k + 1`. -/
theorem retryLoop_step_error (att : Nat → Except String Unit) (b k r : Nat)
    (e : String) (hk : att k = .error e) :
    retryLoop att b k (r + 1 + 1) =
      { result := (retryLoop att b (k + 1) (r + 1)).result
        sleeps := b * k :: (retryLoop att b (k + 1) (r + 1)).sleeps
        attemptsMade := (retryLoop att b (k + 1) (r + 1)).attemptsMade + 1 } := by
  simp [retryLoop, hk]

/-- When the attempt at every position from `k` through `k + n` fails,
the loop started at attempt `k` with `n + 1` attempts remaining makes
all `n + 1` attempts, sleeps `backoff * i` after each failed non-final
attempt `i`, and re-raises the exception of the final attempt. -/
theorem retryLoop_fail_all (att : Nat → Except String Unit) (b : Nat)
    (eF : Nat → String) :
    ∀ (n k : Nat), (∀ i, k ≤ i → i ≤ k + n → att i = .error (eF i)) →
      retryLoop att b k (n + 1) =
        { result := .error (eF (k + n))
          sleeps := (List.range' k n).map (fun i => b * i)
          attemptsMade := n + 1 } := by
  intro n
  induction n with
  | zero =>
    intro k h
    have hk : att k = .error (eF k) := h k le_rfl (by omega)
    simp [retryLoop, hk]
  | succ n ih =>
    intro k h
    have hk : att k = .error (eF k) := h k le_rfl (by omega)
    have ih2 := ih (k + 1) (fun i h1 h2 => h i (by omega) (by omega))
    have e1 : k + 1 + n = k + (n + 1) := by omega
    rw [e1] at ih2
    rw [retryLoop_step_error att b k n (eF k) hk, ih2]
    simp [List.range'_succ]

/-- When the attempts at positions `k` through `k + n - 1` fail and the
attempt at `k + n` succeeds, the loop started at attempt `k` with at
least `n + 1` attempts remaining returns success after `n + 1`
attempts, having slept `backoff * i` after each failed attempt `i`. -/
theorem retryLoop_succeeds (att : Nat → Except String Unit) (b : Nat) :
    ∀ (n k m : Nat), (∀ i, k ≤ i → i < k + n → ∃ s, att i = .error s) →
      att (k + n) = .ok () →
      retryLoop att b k (n + 1 + m) =
        { result := .ok true
          sleeps := (List.range' k n).map (fun i => b * i)
          attemptsMade := n + 1 } := by
  intro n
  induction n with
  | zero =>
    intro k m hfail hok
    have hk : att k = .ok () := by simpa using hok
    have e : 0 + 1 + m = m + 1 := by omega
    rw [e]
    simp [retryLoop, hk]
  | succ n ih =>
    intro k m hfail hok
    obtain ⟨s, hk⟩ := hfail k le_rfl (by omega)
    have hok2 : att (k + 1 + n) = .ok () := by
      have e : k + 1 + n = k + (n + 1) := by omega
      rw [e]
      exact hok
    have ih2 := ih (k + 1) m (fun i h1 h2 => hfail i (by omega) (by omega)) hok2
    have e1 : n + 1 + 1 + m = (n + m + 1) + 1 := by omega
    rw [e1]
    have e2 : n + 1 + m = n + m + 1 := by omega
    rw [e2] at ih2
    rw [retryLoop_step_error att b k (n + m) s hk, ih2]
    simp [List.range'_succ]

/-- C3: with `max_attempts = A ≥ 1` and backoff base `b`: if every
attempt raises, exactly `A` attempts are made, the executor sleeps
`b * k` after each failed attempt `k` for `k` in `1..A-1`, the
exception of the final attempt is re-raised and success is never
reported; if attempts `1..k-1` fail and attempt `k ≤ A` succeeds, the
call returns success having slept `b * 1, ..., b * (k - 1)` between
the preceding attempts. -/
theorem download_with_retries_spec (att : Nat → Except String Unit)
    (A b : Nat) (eF : Nat → String) (hA : 1 ≤ A) :
    ((∀ i, 1 ≤ i → i ≤ A → att i = .error (eF i)) →
      download_with_retries att A b =
        { result := .error (eF A)
          sleeps := (List.range' 1 (A - 1)).map (fun i => b * i)
          attemptsMade := A })
    ∧ (∀ k, 1 ≤ k → k ≤ A →
        (∀ i, 1 ≤ i → i < k → ∃ s, att i = .error s) → att k = .ok () →
        download_with_retries att A b =
          { result := .ok true
            sleeps := (List.range' 1 (k - 1)).map (fun i => b * i)
            attemptsMade := k }) := by
  constructor
  · intro h
    have h2 := retryLoop_fail_all att b eF (A - 1) 1
      (fun i h1 h2 => h i h1 (by omega))
    have e2 : 1 + (A - 1) = A := by omega
    have e3 : A - 1 + 1 = A := by omega
    rw [e2, e3] at h2
    exact h2
  · intro k hk1 hkA hfail hok
    have hok2 : att (1 + (k - 1)) = .ok () := by
      have e2 : 1 + (k - 1) = k := by omega
      rw [e2]
      exact hok
    have h2 := retryLoop_succeeds att b (k - 1) 1 (A - k)
      (fun i h1 h2 => hfail i h1 (by omega)) hok2
    have e3 : k - 1 + 1 + (A - k) = A := by omega
    have e4 : k - 1 + 1 = k := by omega
    rw [e3, e4] at h2
    exact h2

/-- C3 witness: three attempts that all fail make exactly three
attempts, sleep `2 * 1` then `2 * 2`, and re-raise the last
exception. -/
theorem download_with_retries_spec_witness :
    download_with_retries (fun _ => .error "boom") 3 2 =
      { result := .error "boom", sleeps := [2, 4], attemptsMade := 3 } := by
  have h := (download_with_retries_spec (fun _ => .error "boom") 3 2
    (fun _ => "boom") (by omega)).1 (fun i _ _ => rfl)
  rw [h]
  simp [List.range'_succ]
